import Mathlib

/-!
# Hydra: request-context middleware and CLI registry

A shallow embedding of `servers/http/middleware/contextHandler.go` and
`hydra/cli.go`, followed by theorems about the embedded functions.

Go maps are modelled by association lists with pairwise distinct keys
(`AList`); the order of the entries stands for the unspecified iteration
order of a Go map, so a statement proved for every `AList` holds for every
iteration order.
-/

namespace Hydra

/-! ## Go values -/

/-- A Go map with string keys. -/
abbrev GoMap (V : Type) := AList (fun _ : String => V)

/-- A Go `error`, identified by the text its `Error()` method returns. -/
structure GoError where
  msg : String
  deriving DecidableEq, Repr

/-- Objects the middleware only passes around and never inspects. -/
inductive Handle where
  | context
  | httpRequest
  | httpResponse
  | time
  | metadataConf
  | jwtFunc
  | bindingFunc
  | bindingWithFunc
  | getRequestValuesFunc
  | bodyGetFunc
  deriving DecidableEq, Repr

/-- A `*logger.Logger`, identified by the session it was opened for. -/
structure Logger where
  session : String
  deriving DecidableEq, Repr

/-- The dynamic values (`interface{}`) the middleware stores and hands on.
`nil` is the nil interface value. -/
inductive Value where
  | nil
  | str (s : String)
  | bool (b : Bool)
  | err (e : GoError)
  | logger (l : Logger)
  | header (h : GoMap (List String))
  | handle (h : Handle)
  deriving DecidableEq

/-! ## `hydra/cli.go` -/

/-- The registry `Cli`: flags and validators per mode, and the cli context. -/
structure Cli (Flag Validator Ctx : Type) where
  flags : GoMap (List Flag)
  validators : GoMap (List Validator)
  cli : Option Ctx

/-- Source `NewCli`: two empty maps, no context. -/
def NewCli {Flag Validator Ctx : Type} : Cli Flag Validator Ctx :=
  { flags := ∅, validators := ∅, cli := none }

/-- Source `Cli.Append`: create the mode's slice if the mode is new, then append. -/
def Cli.Append {Flag Validator Ctx : Type} (c : Cli Flag Validator Ctx)
    (mode : String) (flag : Flag) : Cli Flag Validator Ctx :=
  let flags1 :=
    if (c.flags.lookup mode).isSome then c.flags else c.flags.insert mode []
  { c with flags := flags1.insert mode ((flags1.lookup mode).getD [] ++ [flag]) }

/-- Source `Cli.Validate`: create the mode's slice if the mode is new, then append. -/
def Cli.Validate {Flag Validator Ctx : Type} (c : Cli Flag Validator Ctx)
    (mode : String) (f : Validator) : Cli Flag Validator Ctx :=
  let validators1 :=
    if (c.validators.lookup mode).isSome then c.validators
    else c.validators.insert mode []
  { c with
    validators := validators1.insert mode ((validators1.lookup mode).getD [] ++ [f]) }

/-- Source `Cli.getFlags`: the mode's slice, or an empty slice for an unknown mode. -/
def Cli.getFlags {Flag Validator Ctx : Type} (c : Cli Flag Validator Ctx)
    (mode : String) : List Flag :=
  match c.flags.lookup mode with
  | some v => v
  | none => []

/-- Source `Cli.getValidators`: the mode's slice, or an empty slice. -/
def Cli.getValidators {Flag Validator Ctx : Type} (c : Cli Flag Validator Ctx)
    (mode : String) : List Validator :=
  match c.validators.lookup mode with
  | some v => v
  | none => []

/-- Source `Cli.setContext`. -/
def Cli.setContext {Flag Validator Ctx : Type} (c : Cli Flag Validator Ctx)
    (ctx : Ctx) : Cli Flag Validator Ctx :=
  { c with cli := some ctx }

/-- Source `Cli.Context`. -/
def Cli.Context {Flag Validator Ctx : Type} (c : Cli Flag Validator Ctx) : Option Ctx :=
  c.cli

/-- One registration call made on a registry. -/
inductive CliCall (Flag Validator : Type) where
  | append (mode : String) (flag : Flag)
  | validate (mode : String) (f : Validator)

/-- Perform one registration call. -/
def Cli.call {Flag Validator Ctx : Type} (c : Cli Flag Validator Ctx) :
    CliCall Flag Validator → Cli Flag Validator Ctx
  | .append mode flag => c.Append mode flag
  | .validate mode f => c.Validate mode f

/-- The registry obtained from `NewCli` by a sequence of registration calls. -/
def Cli.run {Flag Validator Ctx : Type} (calls : List (CliCall Flag Validator)) :
    Cli Flag Validator Ctx :=
  calls.foldl Cli.call NewCli

/-- The flags a call sequence appends under `mode`, in call order. -/
def appendedFlags {Flag Validator : Type} (mode : String) :
    List (CliCall Flag Validator) → List Flag
  | [] => []
  | .append m flag :: rest =>
    if m = mode then flag :: appendedFlags mode rest else appendedFlags mode rest
  | .validate _ _ :: rest => appendedFlags mode rest

/-- The validators a call sequence registers under `mode`, in call order. -/
def registeredValidators {Flag Validator : Type} (mode : String) :
    List (CliCall Flag Validator) → List Validator
  | [] => []
  | .append _ _ :: rest => registeredValidators mode rest
  | .validate m f :: rest =>
    if m = mode then f :: registeredValidators mode rest
    else registeredValidators mode rest

/-! ## Map-backed input sources -/

/-- Source `MapData`: `map[string]interface{}`. -/
abbrev MapData := GoMap Value

/-- Source `ParamData`: `map[string]string`. -/
abbrev ParamData := GoMap String

/-- Source `MapData.Get`: `r, ok := i[key]`; an absent key gives the nil interface. -/
def MapData.Get (i : MapData) (key : String) : Value × Bool :=
  match i.lookup key with
  | some r => (r, true)
  | none => (Value.nil, false)

/-- Source `MapData.Keys`. -/
def MapData.Keys (i : MapData) : List String := i.keys

/-- Source `ParamData.Get`: `r, ok := i[key]`; an absent key gives the empty string,
returned as an `interface{}`. -/
def ParamData.Get (i : ParamData) (key : String) : Value × Bool :=
  match i.lookup key with
  | some r => (Value.str r, true)
  | none => (Value.str "", false)

/-- Source `ParamData.Keys`. -/
def ParamData.Keys (i : ParamData) : List String := i.keys

/-- Source `makeMapData`. -/
def makeMapData (m : GoMap Value) : MapData := m

/-! ## The request and the per-request store -/

/-- Source `http.Cookie`, by name and value. -/
structure Cookie where
  Name : String
  Value : String
  deriving DecidableEq, Repr

/-- The parts of `*http.Request` the middleware reads. `Query` is what
`URL.Query()` returns; `PostForm` is the posted form as `ParseForm` and
`ParseMultipartForm` leave it (both are idempotent); `Cookies` are the cookies
of the `Cookie` header in header order. -/
structure Request where
  Method : String
  Path : String
  Header : GoMap (List String)
  Query : GoMap (List String)
  PostForm : GoMap (List String)
  Cookies : List Cookie

/-- Source `Request.Cookie` of net/http: the first cookie of that name, or the error
`ErrNoCookie`. -/
def Request.Cookie (r : Request) (name : String) : Option Cookie × Option GoError :=
  match r.Cookies.find? (fun ck => ck.Name == name) with
  | some ck => (some ck, none)
  | none => (none, some ⟨"http: named cookie not present"⟩)

/-- The parts of `*gin.Context` the middleware uses: the per-request store
`Keys`, the path parameters in route order, and the request. -/
structure GinContext where
  Keys : GoMap Value
  Params : List (String × String)
  Request : Request

/-- Source `gin.Context.Get`: `value, exists = c.Keys[key]`. -/
def GinContext.Get (c : GinContext) (key : String) : Value × Bool :=
  match c.Keys.lookup key with
  | some v => (v, true)
  | none => (Value.nil, false)

/-- Source `gin.Context.Set`: `c.Keys[key] = value`. -/
def GinContext.Set (c : GinContext) (key : String) (value : Value) : GinContext :=
  { c with Keys := c.Keys.insert key value }

/-- Source `gin.Context.GetQuery`: the first value of the key, present when the key has
at least one value. -/
def GinContext.GetQuery (c : GinContext) (key : String) : String × Bool :=
  match c.Request.Query.lookup key with
  | some (v :: _) => (v, true)
  | _ => ("", false)

/-- Source `gin.Context.GetPostForm`: the first value of the key, present when the key
has at least one value. -/
def GinContext.GetPostForm (c : GinContext) (key : String) : String × Bool :=
  match c.Request.PostForm.lookup key with
  | some (v :: _) => (v, true)
  | _ => ("", false)

/-- Source `gin.Params.Get`: the value of the first parameter whose key matches. -/
def Params.Get (ps : List (String × String)) (name : String) : String × Bool :=
  match ps.find? (fun entry => entry.1 == name) with
  | some entry => (entry.2, true)
  | none => ("", false)

/-- State of the process-wide identifier generator behind
`logger.CreateSession`: the identifiers it hands out, and how many it has
handed out so far. -/
structure SessionGen where
  ids : Nat → String
  used : Nat

/-- Source `logger.CreateSession`: the next identifier of the generator. -/
def CreateSession (g : SessionGen) : String × SessionGen :=
  (g.ids g.used, { g with used := g.used + 1 })

/-- The type assertion `v.(string)`; it panics on any other dynamic type. -/
def Value.assertString : Value → Except String String
  | .str s => .ok s
  | _ => .error "interface conversion: not a string"

/-- The type assertion `v.(bool)`. -/
def Value.assertBool : Value → Except String Bool
  | .bool b => .ok b
  | _ => .error "interface conversion: not a bool"

/-- The type assertion `v.(*logger.Logger)`. -/
def Value.assertLogger : Value → Except String Logger
  | .logger l => .ok l
  | _ => .error "interface conversion: not a *logger.Logger"

/-- Source `getUUID`: the attached identifier, else the non-empty `hydra_sid` cookie,
else a new identifier from the generator. A panic is `Except.error`. -/
def getUUID (c : GinContext) (g : SessionGen) : Except String (String × SessionGen) :=
  match c.Get "X-Request-Id" with
  | (v, true) =>
    match v.assertString with
    | .ok s => .ok (s, g)
    | .error p => .error p
  | (_, false) =>
    match c.Request.Cookie "hydra_sid" with
    | (some ck, none) => if ck.Value = "" then .ok (CreateSession g) else .ok (ck.Value, g)
    | _ => .ok (CreateSession g)

/-- Source `setUUID`. -/
def setUUID (c : GinContext) (id : String) : GinContext :=
  c.Set "X-Request-Id" (.str id)

/-- Source `setLogger`. -/
def setLogger (c : GinContext) (l : Logger) : GinContext :=
  c.Set "__logger_" (.logger l)

/-- Source `getLogger`: `l, _ := c.Get("__logger_"); return l.(*logger.Logger)`. -/
def getLogger (c : GinContext) : Except String Logger :=
  (c.Get "__logger_").1.assertLogger

/-- Source `getJWTRaw`. -/
def getJWTRaw (c : GinContext) : Value :=
  (c.Get "__jwt_").1

/-- Source `setJWTRaw`. -/
def setJWTRaw (c : GinContext) (v : Value) : GinContext :=
  c.Set "__jwt_" v

/-- Source `getIsCircuitBreaker`. -/
def getIsCircuitBreaker (c : GinContext) : Except String Bool :=
  match c.Get "__is_circuit_breaker_" with
  | (b, true) => b.assertBool
  | (_, false) => .ok false

/-- Source `setIsCircuitBreaker`. -/
def setIsCircuitBreaker (c : GinContext) (v : Bool) : GinContext :=
  c.Set "__is_circuit_breaker_" (.bool v)

/-- Source `getServiceName`. -/
def getServiceName (c : GinContext) : Except String String :=
  match c.Get "__service_" with
  | (service, true) => service.assertString
  | (_, false) => .ok ""

/-- Source `setServiceName`. -/
def setServiceName (c : GinContext) (v : String) : GinContext :=
  c.Set "__service_" (.str v)

/-- Source `setCTX`: stores the pointer to the request context. -/
def setCTX (c : GinContext) : GinContext :=
  c.Set "__context_" (.handle .context)

/-- Source `setResponseRaw`. -/
def setResponseRaw (c : GinContext) (raw : String) : GinContext :=
  c.Set "__response_raw_" (.str raw)

/-- Source `getResponseRaw`. -/
def getResponseRaw (c : GinContext) : Except String (String × Bool) :=
  match c.Get "__response_raw_" with
  | (v, true) =>
    match v.assertString with
    | .ok s => .ok (s, true)
    | .error p => .error p
  | (_, false) => .ok ("", false)

/-! ## Input sources -/

/-- The interface `IInputData`. -/
structure IInputData where
  Get : String → Value × Bool
  Keys : Unit → List String

/-- The struct `InputData`: two closures. -/
structure InputData where
  keys : Unit → List String
  get : String → String × Bool

/-- Source `InputData.Get`: `return i.get(key)`, the string returned as `interface{}`. -/
def InputData.Get (i : InputData) (key : String) : Value × Bool :=
  (Value.str (i.get key).1, (i.get key).2)

/-- Source `InputData.Keys`. -/
def InputData.Keys (i : InputData) : List String := i.keys ()

/-- Source `InputData` as an `IInputData`. -/
def InputData.toIInputData (i : InputData) : IInputData :=
  { Get := i.Get, Keys := fun _ => i.Keys }

/-- Source `MapData` as an `IInputData`. -/
def MapData.toIInputData (i : MapData) : IInputData :=
  { Get := i.Get, Keys := fun _ => i.Keys }

/-- Source `ParamData` as an `IInputData`. -/
def ParamData.toIInputData (i : ParamData) : IInputData :=
  { Get := i.Get, Keys := fun _ => i.Keys }

/-- Source `newInputDataByPostForm`. -/
def newInputDataByPostForm (c : GinContext) : InputData :=
  { get := c.GetPostForm, keys := fun _ => c.Request.PostForm.keys }

/-- Source `newInputDataByURlQuery`. -/
def newInputDataByURlQuery (c : GinContext) : InputData :=
  { get := c.GetQuery, keys := fun _ => c.Request.Query.keys }

/-- Source `newInputDataByParam`. -/
def newInputDataByParam (c : GinContext) : InputData :=
  { get := Params.Get c.Params, keys := fun _ => c.Params.map (fun k => k.1) }

/-- Source `makeFormData`: the form parse it triggers is the one whose result is the
`PostForm` field. -/
def makeFormData (c : GinContext) : IInputData :=
  (newInputDataByPostForm c).toIInputData

/-- Source `makeQueyStringData`. -/
def makeQueyStringData (c : GinContext) : IInputData :=
  (newInputDataByURlQuery c).toIInputData

/-- Source `makeParamsData`. -/
def makeParamsData (c : GinContext) : IInputData :=
  (newInputDataByParam c).toIInputData

/-- Source `makeSettingData`. -/
def makeSettingData (_c : GinContext) (m : GoMap String) : ParamData := m

/-! ## The extension bundle -/

/-- Source `strings.ToLower` on an HTTP method, whose characters are ASCII. -/
def ToLower (s : String) : String := String.mk (s.data.map Char.toLower)

/-- Source `strings.Join(v, ",")`. -/
def Join (v : List String) : String := ",".intercalate v

/-- The comma-joined list of values, in the words of the claim: no value gives
the empty string, a single value is returned as is, and each further value
follows a comma. -/
def commaJoined : List String → String
  | [] => ""
  | [x] => x
  | x :: y :: rest => x ++ "," ++ commaJoined (y :: rest)

/-- The `switch len(v)` of the request-values closure: a single value as is,
otherwise the values joined by commas. -/
def flattenValues : List String → Value
  | [x] => .str x
  | v => .str (Join v)

/-- The body of the closure stored under `"__get_request_values_"`: the query
fields are written into `data` first, the posted-form fields after them. -/
def getRequestValues (c : GinContext) : GoMap Value :=
  let data : GoMap Value := ∅
  let query := c.Request.Query
  let data := query.foldl (fun d k v => d.insert k (flattenValues v)) data
  let forms := c.Request.PostForm
  let data := forms.foldl (fun d k v => d.insert k (flattenValues v)) data
  data

/-- Source `makeExtData`: the extension bundle. Closures and transport objects are
stored as handles; the body of the request-values closure is
`getRequestValues`, that of the jwt closure is `getJWTRaw`. The result is the
bundle or a panic, together with the generator state afterwards. -/
def makeExtData (c : GinContext) (g : SessionGen) :
    Except String (GoMap Value) × SessionGen :=
  let input : GoMap Value := ∅
  match getUUID c g with
  | .error p => (.error p, g)
  | .ok (id, g1) =>
    let input := input.insert "X-Request-Id" (.str id)
    let input := input.insert "__method_" (.str (ToLower c.Request.Method))
    let input := input.insert "__header_" (.header c.Request.Header)
    let input := input.insert "__path_" (.str c.Request.Path)
    match getIsCircuitBreaker c with
    | .error p => (.error p, g1)
    | .ok b =>
      let input := input.insert "__is_circuit_breaker_" (.bool b)
      let input := input.insert "__jwt_" (.handle .jwtFunc)
      let input := input.insert "__func_http_request_" (.handle .httpRequest)
      let input := input.insert "__func_http_response_" (.handle .httpResponse)
      let input := input.insert "__binding_" (.handle .bindingFunc)
      let input := input.insert "__binding_with_" (.handle .bindingWithFunc)
      let input := input.insert "__get_request_values_" (.handle .getRequestValuesFunc)
      let input := input.insert "__func_body_get_" (.handle .bodyGetFunc)
      (.ok input, g1)

/-! ## The request context and the response -/

/-- Modelled from the spec: the Composite Parameter View of `context.Request`,
which is not in these files. It holds its input sources in precedence order. -/
structure ParameterView where
  sources : List IInputData

/-- Modelled from the spec: `get(key)` of the Composite Parameter View iterates
the sources in precedence order and returns the first present hit, and
"not present" if no source has the key. -/
def ParameterView.get (view : ParameterView) (key : String) : Value × Bool :=
  match view.sources.find? (fun src => (src.Get key).2) with
  | some src => src.Get key
  | none => (Value.nil, false)

/-- Modelled from the spec: `keys()` of the Composite Parameter View is the
union of the keys of all sources, duplicates permitted. -/
def ParameterView.keys (view : ParameterView) : List String :=
  view.sources.flatMap (fun src => src.Keys ())

/-- The fields of `context.Context` the handler touches, besides the response:
the names it was built with, the parameter view and the logger. -/
structure Context where
  Name : String
  Engine : String
  Service : String
  Request : ParameterView
  Log : Logger

/-- Modelled from the spec: `context.GetContext`, which is not in these files.
It keeps the names and the logger and assembles the Composite Parameter View
from the five sources it is handed, in the default precedence order of the
spec: path params, posted form, query string, static settings, extension
bundle. -/
def GetContext (name engine service : String)
    (queryString form param : IInputData) (setting : ParamData)
    (ext : GoMap Value) (log : Logger) : Context :=
  { Name := name, Engine := engine, Service := service,
    Request := { sources := [param, form, queryString, setting.toIInputData,
                             (makeMapData ext).toIInputData] },
    Log := log }

/-- The methods of `context.Response` the handler calls; the type is declared
outside these files, so the handler is stated over any implementation. -/
structure ResponseOps (R : Type) where
  GetParams : R → GoMap Value
  GetError : R → Option GoError
  ShouldContent : R → Value → R

/-- Modelled from the spec: a `context.Response` that keeps the response
parameters map, the error raised by the executor and the attached content;
`ShouldContent` attaches the content it is given. -/
structure Response where
  Params : GoMap Value
  err : Option GoError
  Content : Value
  deriving DecidableEq

/-- Modelled from the spec: the operations of `Response`. -/
def Response.ops : ResponseOps Response :=
  { GetParams := fun r => r.Params,
    GetError := fun r => r.err,
    ShouldContent := fun r content => { r with Content := content } }

/-- How `handler.Execute(ctx)` ends: it returns a result (possibly the nil
interface) or panics; either way it leaves a response state behind. -/
inductive ExecOutcome (R : Type) where
  | returned (result : Value) (resp : R)
  | panicked (msg : String) (resp : R)

/-- Source `servers.IExecuter`: `Execute`, as a function of the request context. -/
abbrev IExecuter (R : Type) := Context → ExecOutcome R

/-- Source `setAuthTag`: copy the response parameter `"__auth_tag_"` into the store,
if the response parameters have it. -/
def setAuthTag {R : Type} (ops : ResponseOps R) (c : GinContext) (resp : R) : GinContext :=
  match (ops.GetParams resp).lookup "__auth_tag_" with
  | some tag => c.Set "__auth_tag_" tag
  | none => c

/-- Source `fmt.Errorf("error:%v", err)`. -/
def wrapError (err : GoError) : GoError := ⟨"error:" ++ err.msg⟩

/-- The error the handler attaches: the wrapped error in debug mode, the fixed
error otherwise. -/
def maskError (IsDebug : Bool) (err : GoError) : GoError :=
  if !IsDebug then ⟨"error:Internal Server Error"⟩ else err

/-- What one run of the handler function leaves behind: whether it panicked,
the store, the generator, the errors logged (oldest first, with the logger
used), and the response state (`none` when no context was built). -/
structure HandlerEnd (R : Type) where
  panic : Option String
  Keys : GoMap Value
  gen : SessionGen
  log : List (Logger × GoError)
  Response : Option R

/-- The two deferred calls, run when the handler function exits, last
registered first: `setCTX(c, ctx)`, then `setServiceName(c, service)` with the
service name evaluated when the call was deferred. -/
def runDeferred (c : GinContext) (service : String) : GinContext :=
  setServiceName (setCTX c) service

/-- The first statements of the handler function: the arguments of
`context.GetContext` are evaluated left to right (`makeExtData` may panic and
may take an identifier from the generator, `getLogger` may panic), then the
context is built. The result is the context or a panic, together with the
generator state afterwards. -/
def buildContext (name engine service : String) (mSetting : GoMap String)
    (c : GinContext) (g : SessionGen) : Except String Context × SessionGen :=
  let queryString := makeQueyStringData c
  let form := makeFormData c
  let param := makeParamsData c
  let setting := makeSettingData c mSetting
  match makeExtData c g with
  | (.error p, g1) => (.error p, g1)
  | (.ok ext, g1) =>
    match getLogger c with
    | .error p => (.error p, g1)
    | .ok lg => (.ok (GetContext name engine service queryString form param setting ext lg), g1)

/-- The response after `if result != nil { ctx.Response.ShouldContent(result) }`. -/
def attachResult {R : Type} (ops : ResponseOps R) (result : Value) (resp : R) : R :=
  if result ≠ Value.nil then ops.ShouldContent resp result else resp

/-- The function returned by `ContextHandler(exhandler, name, engine, service,
mSetting)`, run on one request `c` with generator state `g`, earlier log `log`
and the value `IsDebug` of `servers.IsDebug`. -/
def ContextHandler {R : Type} (ops : ResponseOps R) (handler : IExecuter R)
    (name engine service : String) (mSetting : GoMap String) (IsDebug : Bool)
    (c : GinContext) (g : SessionGen) (log : List (Logger × GoError)) : HandlerEnd R :=
  match buildContext name engine service mSetting c g with
  | (.error p, g1) =>
    { panic := some p, Keys := c.Keys, gen := g1, log := log, Response := none }
  | (.ok ctx, g1) =>
    match handler ctx with
    | .panicked p resp =>
      { panic := some p, Keys := (runDeferred c ctx.Service).Keys, gen := g1, log := log,
        Response := some resp }
    | .returned result resp0 =>
      let resp1 := attachResult ops result resp0
      let c1 := setAuthTag ops c resp1
      match ops.GetError resp1 with
      | none =>
        { panic := none, Keys := (runDeferred c1 ctx.Service).Keys, gen := g1, log := log,
          Response := some resp1 }
      | some err =>
        let err1 := wrapError err
        match getLogger c1 with
        | .error p =>
          { panic := some p, Keys := (runDeferred c1 ctx.Service).Keys, gen := g1,
            log := log, Response := some resp1 }
        | .ok lg =>
          let log1 := log ++ [(lg, err1)]
          let err2 := maskError IsDebug err1
          { panic := none, Keys := (runDeferred c1 ctx.Service).Keys, gen := g1,
            log := log1, Response := some (ops.ShouldContent resp1 (Value.err err2)) }

/-! ## Concrete inputs -/

/-- A request `GET /order?id=7` without cookies. -/
def sampleRequest : Request :=
  { Method := "GET", Path := "/order", Header := ∅,
    Query := (∅ : GoMap (List String)).insert "id" ["7"],
    PostForm := ∅, Cookies := [] }

/-- A request context for `sampleRequest` with path parameter `id=42`, whose
store holds a logger and the identifier `"s1"`. -/
def sampleContext : GinContext :=
  { Keys := ((∅ : GoMap Value).insert "__logger_" (.logger ⟨"s1"⟩)).insert
      "X-Request-Id" (.str "s1"),
    Params := [("id", "42")],
    Request := sampleRequest }

/-- A request context whose store is empty and whose request has no cookie. -/
def bareContext : GinContext :=
  { Keys := ∅, Params := [], Request := sampleRequest }

/-- A request context without attached identifier whose request carries the
cookie `hydra_sid=c9`. -/
def cookieContext : GinContext :=
  { Keys := ∅, Params := [],
    Request := { sampleRequest with Cookies := [⟨"hydra_sid", "c9"⟩] } }

/-- A generator that hands out `"a1"` first and `"b2"` from then on. -/
def sampleGen : SessionGen :=
  { ids := fun n => if n = 0 then "a1" else "b2", used := 0 }

/-- A response as a fresh context has it: no parameters, no error, no content. -/
def emptyResponse : Response :=
  { Params := ∅, err := none, Content := Value.nil }

/-- An executor that raises the error `"db timeout"` and returns nil. -/
def failingExecuter : IExecuter Response :=
  fun _ => .returned Value.nil { emptyResponse with err := some ⟨"db timeout"⟩ }

/-- An executor that returns nil and raises no error. -/
def silentExecuter : IExecuter Response :=
  fun _ => .returned Value.nil emptyResponse

/-- An executor that sets the response parameter `"__auth_tag_"` to `"vip"`
and returns the text `"ok"`. -/
def taggingExecuter : IExecuter Response :=
  fun _ => .returned (.str "ok")
    { emptyResponse with Params := (∅ : GoMap Value).insert "__auth_tag_" (.str "vip") }

/-- An executor that panics. -/
def panickingExecuter : IExecuter Response :=
  fun _ => .panicked "boom" emptyResponse

/-! ## Theorems: CLI registry -/

theorem getFlags_Append {Flag Validator Ctx : Type} (c : Cli Flag Validator Ctx)
    (m m' : String) (flag : Flag) :
    (c.Append m flag).getFlags m' =
      if m' = m then c.getFlags m ++ [flag] else c.getFlags m' := by
  unfold Cli.Append Cli.getFlags
  by_cases h : m' = m
  · subst h
    cases hl : AList.lookup m' c.flags <;> simp [hl]
  · cases hl : AList.lookup m c.flags <;> simp [hl, h, AList.lookup_insert_ne]

theorem getValidators_Validate {Flag Validator Ctx : Type} (c : Cli Flag Validator Ctx)
    (m m' : String) (f : Validator) :
    (c.Validate m f).getValidators m' =
      if m' = m then c.getValidators m ++ [f] else c.getValidators m' := by
  unfold Cli.Validate Cli.getValidators
  by_cases h : m' = m
  · subst h
    cases hl : AList.lookup m' c.validators <;> simp [hl]
  · cases hl : AList.lookup m c.validators <;> simp [hl, h, AList.lookup_insert_ne]

theorem getFlags_Validate {Flag Validator Ctx : Type} (c : Cli Flag Validator Ctx)
    (m m' : String) (f : Validator) :
    (c.Validate m f).getFlags m' = c.getFlags m' := rfl

theorem getValidators_Append {Flag Validator Ctx : Type} (c : Cli Flag Validator Ctx)
    (m m' : String) (flag : Flag) :
    (c.Append m flag).getValidators m' = c.getValidators m' := rfl

theorem getFlags_foldl {Flag Validator Ctx : Type}
    (calls : List (CliCall Flag Validator)) (c : Cli Flag Validator Ctx) (m : String) :
    (calls.foldl Cli.call c).getFlags m = c.getFlags m ++ appendedFlags m calls := by
  induction calls generalizing c with
  | nil => simp [appendedFlags]
  | cons call rest ih =>
    cases call with
    | append m' flag =>
      rw [List.foldl_cons, ih, Cli.call, getFlags_Append, appendedFlags]
      by_cases h : m' = m
      · subst h; simp
      · have h' : ¬ m = m' := fun e => h e.symm
        simp [h, h']
    | validate m' f =>
      rw [List.foldl_cons, ih, Cli.call, getFlags_Validate, appendedFlags]

theorem getValidators_foldl {Flag Validator Ctx : Type}
    (calls : List (CliCall Flag Validator)) (c : Cli Flag Validator Ctx) (m : String) :
    (calls.foldl Cli.call c).getValidators m =
      c.getValidators m ++ registeredValidators m calls := by
  induction calls generalizing c with
  | nil => simp [registeredValidators]
  | cons call rest ih =>
    cases call with
    | append m' flag =>
      rw [List.foldl_cons, ih, Cli.call, getValidators_Append, registeredValidators]
    | validate m' f =>
      rw [List.foldl_cons, ih, Cli.call, getValidators_Validate, registeredValidators]
      by_cases h : m' = m
      · subst h; simp
      · have h' : ¬ m = m' := fun e => h e.symm
        simp [h, h']

/-- C10: after any sequence of `Append` and `Validate` calls on a registry made by
`NewCli`, `getFlags m` is exactly the list of flags appended under `m`, in call
order (so it is empty for a mode never appended to), and `getValidators m` is
exactly the list of validators registered under `m`, in call order; one more
`Append` under `m` extends `getFlags m` by that flag and leaves `getFlags` of
every other mode and every `getValidators` unchanged, and symmetrically for
`Validate`. -/
theorem C10_registry_per_mode {Flag Validator Ctx : Type}
    (calls : List (CliCall Flag Validator)) (m : String) :
    (Cli.run calls : Cli Flag Validator Ctx).getFlags m = appendedFlags m calls ∧
    (Cli.run calls : Cli Flag Validator Ctx).getValidators m
      = registeredValidators m calls ∧
    (∀ (c : Cli Flag Validator Ctx) (m' : String) (flag : Flag),
      (c.Append m' flag).getFlags m
        = (if m = m' then c.getFlags m' ++ [flag] else c.getFlags m) ∧
      (c.Append m' flag).getValidators m = c.getValidators m) ∧
    (∀ (c : Cli Flag Validator Ctx) (m' : String) (f : Validator),
      (c.Validate m' f).getValidators m
        = (if m = m' then c.getValidators m' ++ [f] else c.getValidators m) ∧
      (c.Validate m' f).getFlags m = c.getFlags m) := by
  refine ⟨?_, ?_, ?_, ?_⟩
  · unfold Cli.run
    rw [getFlags_foldl]
    simp [Cli.getFlags, NewCli]
  · unfold Cli.run
    rw [getValidators_foldl]
    simp [Cli.getValidators, NewCli]
  · intro c m' flag
    exact ⟨getFlags_Append c m' m flag, getValidators_Append c m' m flag⟩
  · intro c m' f
    exact ⟨getValidators_Validate c m' m f, getFlags_Validate c m' m f⟩

/-! ## Theorems: map-backed sources -/

/-- C9: `MapData.Get` and `ParamData.Get` are total; for either, the presence
flag is `true` exactly for the keys of the map, a stored value is returned
unchanged with flag `true`, and a key that is not in the map gets flag `false`,
so an absent key never looks like a stored empty value. -/
theorem C9_map_sources_get (md : MapData) (pd : ParamData) (key : String) :
    ((md.Get key).2 = true ↔ key ∈ md.Keys) ∧
    (∀ v, md.lookup key = some v ↔ md.Get key = (v, true)) ∧
    (md.lookup key = none ↔ (md.Get key).2 = false) ∧
    ((pd.Get key).2 = true ↔ key ∈ pd.Keys) ∧
    (∀ s, pd.lookup key = some s ↔ pd.Get key = (Value.str s, true)) ∧
    (pd.lookup key = none ↔ (pd.Get key).2 = false) := by
  unfold MapData.Get ParamData.Get MapData.Keys ParamData.Keys
  refine ⟨?_, ?_, ?_, ?_, ?_, ?_⟩
  · rw [← AList.mem_keys, ← AList.lookup_isSome]
    cases AList.lookup key md <;> simp
  · intro v
    cases AList.lookup key md <;> simp
  · cases AList.lookup key md <;> simp
  · rw [← AList.mem_keys, ← AList.lookup_isSome]
    cases AList.lookup key pd <;> simp
  · intro s
    cases AList.lookup key pd <;> simp
  · cases AList.lookup key pd <;> simp

/-! ## Theorems: correlation id -/

theorem get_of_lookup_some (c : GinContext) (key : String) (v : Value)
    (h : c.Keys.lookup key = some v) : c.Get key = (v, true) := by
  simp [GinContext.Get, h]

theorem get_of_lookup_none (c : GinContext) (key : String)
    (h : c.Keys.lookup key = none) : c.Get key = (Value.nil, false) := by
  simp [GinContext.Get, h]

theorem getUUID_attached (c : GinContext) (g : SessionGen) (id : String)
    (h : c.Keys.lookup "X-Request-Id" = some (.str id)) :
    getUUID c g = .ok (id, g) := by
  simp [getUUID, get_of_lookup_some c _ _ h, Value.assertString]

theorem getUUID_cookie (c : GinContext) (g : SessionGen) (ck : Cookie)
    (h : c.Keys.lookup "X-Request-Id" = none)
    (hck : c.Request.Cookie "hydra_sid" = (some ck, none)) (hv : ck.Value ≠ "") :
    getUUID c g = .ok (ck.Value, g) := by
  simp [getUUID, get_of_lookup_none c _ h, hck, hv]

/-- C2: `getUUID` checks in order. An identifier attached under
`"X-Request-Id"` is returned whatever the cookies are; with no attached value,
a `hydra_sid` cookie with non-empty value gives that value; with no attached
value and no such cookie, a lookup error, or an empty cookie value, the result
is the next identifier of the generator. -/
theorem C2_getUUID_order (c : GinContext) (g : SessionGen) :
    (∀ id, c.Keys.lookup "X-Request-Id" = some (.str id) → getUUID c g = .ok (id, g)) ∧
    (c.Keys.lookup "X-Request-Id" = none →
      ∀ ck, c.Request.Cookie "hydra_sid" = (some ck, none) → ck.Value ≠ "" →
        getUUID c g = .ok (ck.Value, g)) ∧
    (c.Keys.lookup "X-Request-Id" = none →
      ((c.Request.Cookie "hydra_sid").1 = none ∨
        (c.Request.Cookie "hydra_sid").2 ≠ none ∨
        (∃ ck, (c.Request.Cookie "hydra_sid").1 = some ck ∧ ck.Value = "")) →
      getUUID c g = .ok (CreateSession g)) := by
  refine ⟨fun id h => getUUID_attached c g id h,
    fun h ck hck hv => getUUID_cookie c g ck h hck hv, ?_⟩
  intro h hcases
  simp only [getUUID, get_of_lookup_none c _ h]
  rcases hres : c.Request.Cookie "hydra_sid" with ⟨ck, err⟩
  rw [hres] at hcases
  cases ck with
  | none => rfl
  | some ck =>
    cases err with
    | some e => rfl
    | none =>
      rcases hcases with h1 | h2 | ⟨ck', h3, h4⟩
      · simp at h1
      · simp at h2
      · simp only [Option.some.injEq] at h3
        subst h3
        simp [h4]

/-- Witness for C2: an attached identifier wins, a cookie is used when nothing
is attached, and a bare request gets the generator's next identifier. -/
theorem C2_getUUID_order_witness :
    getUUID sampleContext sampleGen = .ok ("s1", sampleGen) ∧
    getUUID cookieContext sampleGen = .ok ("c9", sampleGen) ∧
    getUUID bareContext sampleGen = .ok (CreateSession sampleGen) :=
  ⟨(C2_getUUID_order sampleContext sampleGen).1 "s1" (by decide),
   (C2_getUUID_order cookieContext sampleGen).2.1 (by decide) ⟨"hydra_sid", "c9"⟩
     (by decide) (by decide),
   (C2_getUUID_order bareContext sampleGen).2.2 (by decide) (Or.inl (by decide))⟩

/-- C3, as stated, fails: on a request with no attached identifier and no
cookie, two successive calls of `getUUID` on the same request state return the
two different identifiers `"a1"` and `"b2"` of the generator. -/
theorem C3_two_lookups_differ :
    getUUID bareContext sampleGen = .ok ("a1", (CreateSession sampleGen).2) ∧
    getUUID bareContext (CreateSession sampleGen).2 =
      .ok ("b2", (CreateSession (CreateSession sampleGen).2).2) ∧
    ("a1" : String) ≠ "b2" :=
  ⟨rfl, rfl, by decide⟩

theorem makeExtData_uuid (c : GinContext) (g g1 : SessionGen) (ext : GoMap Value)
    (id : String) (hid : getUUID c g = .ok (id, g))
    (h : makeExtData c g = (.ok ext, g1)) :
    ext.lookup "X-Request-Id" = some (.str id) ∧ g1 = g := by
  unfold makeExtData at h
  rw [hid] at h
  cases hb : getIsCircuitBreaker c with
  | error p => simp [hb] at h
  | ok b =>
    simp only [hb, Prod.mk.injEq, Except.ok.injEq] at h
    obtain ⟨h1, h2⟩ := h
    subst h1
    refine ⟨?_, h2.symm⟩
    simp only [ne_eq, String.reduceEq, not_false_eq_true, AList.lookup_insert_ne,
      AList.lookup_insert]

/-- C3, amended: when an identifier is attached under `"X-Request-Id"`, or
nothing is attached and the request carries a `hydra_sid` cookie with non-empty
value, every call of `getUUID` on that request state returns one and the same
identifier, whatever the generator state, and does not advance the generator;
`makeExtData` puts that identifier into the bundle under `"X-Request-Id"`; and
after `setUUID c id` the identifier returned is `id`. -/
theorem C3_uuid_stable_when_pinned (c : GinContext)
    (h : (∃ id, c.Keys.lookup "X-Request-Id" = some (.str id)) ∨
      (c.Keys.lookup "X-Request-Id" = none ∧
        ∃ ck, c.Request.Cookie "hydra_sid" = (some ck, none) ∧ ck.Value ≠ "")) :
    ∃ id, (∀ g, getUUID c g = .ok (id, g)) ∧
      (∀ g ext g1, makeExtData c g = (.ok ext, g1) →
        ext.lookup "X-Request-Id" = some (.str id)) ∧
      (∀ id' g, getUUID (setUUID c id') g = .ok (id', g)) := by
  have hset : ∀ id' g, getUUID (setUUID c id') g = .ok (id', g) := by
    intro id' g
    apply getUUID_attached
    simp [setUUID, GinContext.Set]
  rcases h with ⟨id, hid⟩ | ⟨hnone, ck, hck, hv⟩
  · exact ⟨id, fun g => getUUID_attached c g id hid,
      fun g ext g1 hm => (makeExtData_uuid c g g1 ext id (getUUID_attached c g id hid) hm).1,
      hset⟩
  · exact ⟨ck.Value, fun g => getUUID_cookie c g ck hnone hck hv,
      fun g ext g1 hm =>
        (makeExtData_uuid c g g1 ext ck.Value (getUUID_cookie c g ck hnone hck hv) hm).1,
      hset⟩

/-- Witness for the amended C3 on a request with an attached identifier. -/
theorem C3_uuid_stable_when_pinned_witness :
    ∃ id, (∀ g, getUUID sampleContext g = .ok (id, g)) ∧
      (∀ g ext g1, makeExtData sampleContext g = (.ok ext, g1) →
        ext.lookup "X-Request-Id" = some (.str id)) ∧
      (∀ id' g, getUUID (setUUID sampleContext id') g = .ok (id', g)) :=
  C3_uuid_stable_when_pinned sampleContext (Or.inl ⟨"s1", by decide⟩)

/-! ## Theorems: the handler -/

theorem buildContext_ok (name engine service : String) (mSetting : GoMap String)
    (c : GinContext) (g g1 : SessionGen) (ctx : Context)
    (hb : buildContext name engine service mSetting c g = (.ok ctx, g1)) :
    ∃ ext lg, getLogger c = .ok lg ∧
      ctx = GetContext name engine service (makeQueyStringData c) (makeFormData c)
        (makeParamsData c) (makeSettingData c mSetting) ext lg := by
  unfold buildContext at hb
  rcases hm : makeExtData c g with ⟨r, g2⟩
  cases r with
  | error p => simp [hm] at hb
  | ok ext =>
    cases hl : getLogger c with
    | error p => simp [hm, hl] at hb
    | ok lg =>
      simp only [hm, hl, Prod.mk.injEq, Except.ok.injEq] at hb
      exact ⟨ext, lg, rfl, hb.1.symm⟩

theorem getLogger_setAuthTag {R : Type} (ops : ResponseOps R) (c : GinContext) (resp : R) :
    getLogger (setAuthTag ops c resp) = getLogger c := by
  unfold setAuthTag
  cases (ops.GetParams resp).lookup "__auth_tag_" with
  | none => rfl
  | some tag =>
    simp [getLogger, GinContext.Get, GinContext.Set, AList.lookup_insert_ne]

/-- C1: when the handler has built its context, the executor has returned, and
the response then carries the error `E`, the handler ends without panic, logs
the wrapped error, and attaches as response content the error with text
`"error:Internal Server Error"` when the debug flag is off and `"error:"`
followed by the text of `E` when it is on. -/
theorem C1_error_masking {R : Type} (ops : ResponseOps R) (handler : IExecuter R)
    (name engine service : String) (mSetting : GoMap String) (IsDebug : Bool)
    (c : GinContext) (g : SessionGen) (log : List (Logger × GoError))
    (ctx : Context) (g1 : SessionGen) (result : Value) (resp0 : R) (E : GoError)
    (hb : buildContext name engine service mSetting c g = (.ok ctx, g1))
    (hx : handler ctx = .returned result resp0)
    (hE : ops.GetError (attachResult ops result resp0) = some E) :
    (ContextHandler ops handler name engine service mSetting IsDebug c g log).panic = none ∧
    (ContextHandler ops handler name engine service mSetting IsDebug c g log).Response =
      some (ops.ShouldContent (attachResult ops result resp0)
        (Value.err ⟨if IsDebug then "error:" ++ E.msg else "error:Internal Server Error"⟩)) ∧
    (∃ lg, (ContextHandler ops handler name engine service mSetting IsDebug c g log).log =
      log ++ [(lg, ⟨"error:" ++ E.msg⟩)]) := by
  obtain ⟨ext, lg, hlg, _⟩ := buildContext_ok name engine service mSetting c g g1 ctx hb
  have hl := getLogger_setAuthTag ops c (attachResult ops result resp0)
  rw [hlg] at hl
  unfold ContextHandler
  simp only [hb, hx, hE, hl]
  refine ⟨by trivial, ?_, lg, by trivial⟩
  cases IsDebug <;> simp [maskError, wrapError]

/-- Witness for C1: the executor raises `"db timeout"`; the caller sees
`"error:db timeout"` in debug mode and `"error:Internal Server Error"` in
production mode. -/
theorem C1_error_masking_witness :
    (ContextHandler Response.ops failingExecuter "api" "rpc" "/order" ∅ true
        sampleContext sampleGen []).Response =
      some { Params := ∅, err := some ⟨"db timeout"⟩,
             Content := Value.err ⟨"error:db timeout"⟩ } ∧
    (ContextHandler Response.ops failingExecuter "api" "rpc" "/order" ∅ false
        sampleContext sampleGen []).Response =
      some { Params := ∅, err := some ⟨"db timeout"⟩,
             Content := Value.err ⟨"error:Internal Server Error"⟩ } :=
  ⟨(C1_error_masking Response.ops failingExecuter "api" "rpc" "/order" ∅ true
      sampleContext sampleGen [] _ _ _ _ ⟨"db timeout"⟩ rfl rfl rfl).2.1,
   (C1_error_masking Response.ops failingExecuter "api" "rpc" "/order" ∅ false
      sampleContext sampleGen [] _ _ _ _ ⟨"db timeout"⟩ rfl rfl rfl).2.1⟩

/-- C5: when the handler has built its context, the executor returns nil and
the response carries no error, the handler ends without panic, logs nothing
and leaves the response exactly as the executor left it. -/
theorem C5_nil_result_untouched {R : Type} (ops : ResponseOps R) (handler : IExecuter R)
    (name engine service : String) (mSetting : GoMap String) (IsDebug : Bool)
    (c : GinContext) (g : SessionGen) (log : List (Logger × GoError))
    (ctx : Context) (g1 : SessionGen) (resp0 : R)
    (hb : buildContext name engine service mSetting c g = (.ok ctx, g1))
    (hx : handler ctx = .returned Value.nil resp0)
    (hE : ops.GetError resp0 = none) :
    (ContextHandler ops handler name engine service mSetting IsDebug c g log).panic = none ∧
    (ContextHandler ops handler name engine service mSetting IsDebug c g log).Response =
      some resp0 ∧
    (ContextHandler ops handler name engine service mSetting IsDebug c g log).log = log := by
  have ha : attachResult ops Value.nil resp0 = resp0 := by simp [attachResult]
  unfold ContextHandler
  simp only [hb, hx, ha, hE]
  exact ⟨by trivial, by trivial, by trivial⟩

/-- Witness for C5 on the executor that returns nil and raises no error. -/
theorem C5_nil_result_untouched_witness :
    (ContextHandler Response.ops silentExecuter "api" "rpc" "/order" ∅ false
        sampleContext sampleGen []).Response = some emptyResponse :=
  (C5_nil_result_untouched Response.ops silentExecuter "api" "rpc" "/order" ∅ false
      sampleContext sampleGen [] _ _ emptyResponse rfl rfl rfl).2.1

theorem keys_of_returned {R : Type} (ops : ResponseOps R) (handler : IExecuter R)
    (name engine service : String) (mSetting : GoMap String) (IsDebug : Bool)
    (c : GinContext) (g : SessionGen) (log : List (Logger × GoError))
    (ctx : Context) (g1 : SessionGen) (result : Value) (resp0 : R)
    (hb : buildContext name engine service mSetting c g = (.ok ctx, g1))
    (hx : handler ctx = .returned result resp0) :
    (ContextHandler ops handler name engine service mSetting IsDebug c g log).Keys =
      (runDeferred (setAuthTag ops c (attachResult ops result resp0)) ctx.Service).Keys := by
  unfold ContextHandler
  simp only [hb, hx]
  cases ops.GetError (attachResult ops result resp0) with
  | none => rfl
  | some err =>
    cases getLogger (setAuthTag ops c (attachResult ops result resp0)) <;> rfl

theorem lookup_runDeferred_authTag (c : GinContext) (service : String) :
    (runDeferred c service).Keys.lookup "__auth_tag_" = c.Keys.lookup "__auth_tag_" := by
  simp [runDeferred, setServiceName, setCTX, GinContext.Set, AList.lookup_insert_ne]

/-- C4: when the handler has built its context, the executor has returned, and
the response parameters map, as the handler reads it, holds `t` under
`"__auth_tag_"`, then the store on which the error classification runs already
holds `t` under `"__auth_tag_"`, the store at the end of the handler is that
store after the two deferred calls, and it still holds `t` under
`"__auth_tag_"`; and for a response whose parameters lack the key,
`setAuthTag` returns the request context unchanged. -/
theorem C4_auth_tag_propagated {R : Type} (ops : ResponseOps R) (handler : IExecuter R)
    (name engine service : String) (mSetting : GoMap String) (IsDebug : Bool)
    (c : GinContext) (g : SessionGen) (log : List (Logger × GoError))
    (ctx : Context) (g1 : SessionGen) (result : Value) (resp0 : R) (t : Value)
    (hb : buildContext name engine service mSetting c g = (.ok ctx, g1))
    (hx : handler ctx = .returned result resp0)
    (ht : (ops.GetParams (attachResult ops result resp0)).lookup "__auth_tag_" = some t) :
    (setAuthTag ops c (attachResult ops result resp0)).Keys.lookup "__auth_tag_" = some t ∧
    (ContextHandler ops handler name engine service mSetting IsDebug c g log).Keys =
      (runDeferred (setAuthTag ops c (attachResult ops result resp0)) ctx.Service).Keys ∧
    (ContextHandler ops handler name engine service mSetting IsDebug c g log).Keys.lookup
      "__auth_tag_" = some t ∧
    (∀ (c' : GinContext) (resp' : R),
      (ops.GetParams resp').lookup "__auth_tag_" = none → setAuthTag ops c' resp' = c') := by
  have h1 : (setAuthTag ops c (attachResult ops result resp0)).Keys.lookup "__auth_tag_"
      = some t := by
    simp [setAuthTag, ht, GinContext.Set]
  have h2 := keys_of_returned ops handler name engine service mSetting IsDebug c g log
    ctx g1 result resp0 hb hx
  refine ⟨h1, h2, ?_, ?_⟩
  · rw [h2, lookup_runDeferred_authTag, h1]
  · intro c' resp' hnone
    simp [setAuthTag, hnone]

/-- Witness for C4: the executor sets the response parameter `"__auth_tag_"` to
`"vip"`; at the end of the handler the store holds `"vip"` under that key. -/
theorem C4_auth_tag_propagated_witness :
    (ContextHandler Response.ops taggingExecuter "api" "rpc" "/order" ∅ false
        sampleContext sampleGen []).Keys.lookup "__auth_tag_" = some (.str "vip") :=
  (C4_auth_tag_propagated Response.ops taggingExecuter "api" "rpc" "/order" ∅ false
      sampleContext sampleGen [] _ _ _ _ (.str "vip") rfl rfl (by decide)).2.2.1

/-- C7, as stated, fails: when the executor panics, the handler function ends
by that panic, the response is as the executor left it, with no content
attached, and nothing has been logged, in production mode and in debug mode. -/
theorem C7_panic_not_classified :
    (ContextHandler Response.ops panickingExecuter "api" "rpc" "/order" ∅ false
        sampleContext sampleGen []).panic = some "boom" ∧
    (ContextHandler Response.ops panickingExecuter "api" "rpc" "/order" ∅ false
        sampleContext sampleGen []).Response = some emptyResponse ∧
    (ContextHandler Response.ops panickingExecuter "api" "rpc" "/order" ∅ false
        sampleContext sampleGen []).log = [] ∧
    (ContextHandler Response.ops panickingExecuter "api" "rpc" "/order" ∅ true
        sampleContext sampleGen []).Response = some emptyResponse :=
  ⟨rfl, rfl, rfl, rfl⟩

/-- C7, amended: when the handler has built its context and the executor
panics, the handler function ends by that same panic; the response is as the
executor left it, nothing is logged, and the store is the store of the request
after the two deferred calls `setCTX` and `setServiceName`. -/
theorem C7_panic_propagates {R : Type} (ops : ResponseOps R) (handler : IExecuter R)
    (name engine service : String) (mSetting : GoMap String) (IsDebug : Bool)
    (c : GinContext) (g : SessionGen) (log : List (Logger × GoError))
    (ctx : Context) (g1 : SessionGen) (p : String) (resp : R)
    (hb : buildContext name engine service mSetting c g = (.ok ctx, g1))
    (hx : handler ctx = .panicked p resp) :
    (ContextHandler ops handler name engine service mSetting IsDebug c g log).panic = some p ∧
    (ContextHandler ops handler name engine service mSetting IsDebug c g log).Response =
      some resp ∧
    (ContextHandler ops handler name engine service mSetting IsDebug c g log).log = log ∧
    (ContextHandler ops handler name engine service mSetting IsDebug c g log).Keys =
      (setServiceName (setCTX c) ctx.Service).Keys := by
  unfold ContextHandler
  simp only [hb, hx]
  exact ⟨by trivial, by trivial, by trivial, by trivial⟩

/-- Witness for the amended C7 on the panicking executor. -/
theorem C7_panic_propagates_witness :
    (ContextHandler Response.ops panickingExecuter "api" "rpc" "/order" ∅ false
        sampleContext sampleGen []).panic = some "boom" ∧
    (ContextHandler Response.ops panickingExecuter "api" "rpc" "/order" ∅ false
        sampleContext sampleGen []).Keys.lookup "__service_" = some (.str "/order") :=
  ⟨(C7_panic_propagates Response.ops panickingExecuter "api" "rpc" "/order" ∅ false
      sampleContext sampleGen [] _ _ "boom" emptyResponse rfl rfl).1,
   by
    rw [(C7_panic_propagates Response.ops panickingExecuter "api" "rpc" "/order" ∅ false
      sampleContext sampleGen [] _ _ "boom" emptyResponse rfl rfl).2.2.2]
    decide⟩

/-! ## Theorems: the parameter view -/

/-- C6: in the context the handler builds from a request, a key that is bound
as a path parameter with value `v` is answered by the parameter view with
`(v, true)`, whatever the query string, the posted form, the settings and the
extension bundle hold for that key. -/
theorem C6_path_param_wins (name engine service : String) (mSetting : GoMap String)
    (c : GinContext) (g g1 : SessionGen) (ctx : Context) (key v : String)
    (hb : buildContext name engine service mSetting c g = (.ok ctx, g1))
    (hp : Params.Get c.Params key = (v, true)) :
    ctx.Request.get key = (Value.str v, true) := by
  obtain ⟨ext, lg, _, hctx⟩ := buildContext_ok name engine service mSetting c g g1 ctx hb
  subst hctx
  have hsrc : (makeParamsData c).Get key = (Value.str v, true) := by
    simp [makeParamsData, InputData.toIInputData, InputData.Get, newInputDataByParam, hp]
  simp [GetContext, ParameterView.get, List.find?, hsrc]

/-- Witness for C6: path parameter `id=42` and query `id=7` give
`get("id") = ("42", true)`. -/
theorem C6_path_param_wins_witness :
    GinContext.GetQuery sampleContext "id" = ("7", true) ∧
    ∃ ctx g1, buildContext "api" "rpc" "/order" ∅ sampleContext sampleGen = (.ok ctx, g1) ∧
      ctx.Request.get "id" = (Value.str "42", true) :=
  ⟨by decide, _, _, rfl,
    C6_path_param_wins "api" "rpc" "/order" ∅ sampleContext sampleGen _ _ "id" "42"
      rfl (by decide)⟩

/-! ## Theorems: request-value materialization -/

theorem flattenValues_eq_join (v : List String) : flattenValues v = Value.str (Join v) := by
  match v with
  | [] => rfl
  | [x] => rfl
  | _ :: _ :: _ => rfl

theorem lookup_foldl_flatten (l : List (Sigma fun _ : String => List String))
    (hl : l.NodupKeys) (d : GoMap Value) (key : String) :
    (l.foldl (fun r a => r.insert a.1 (flattenValues a.2)) d).lookup key =
      match l.dlookup key with
      | some v => some (Value.str (Join v))
      | none => d.lookup key := by
  induction l generalizing d with
  | nil => simp
  | cons a rest ih =>
    obtain ⟨k, v⟩ := a
    rw [List.nodupKeys_cons] at hl
    rw [List.foldl_cons, ih hl.2]
    by_cases hk : key = k
    · subst hk
      have hnone : List.dlookup key rest = none := List.dlookup_eq_none.mpr hl.1
      simp [hnone, flattenValues_eq_join]
    · have hk' : k ≠ key := fun e => hk e.symm
      rw [List.dlookup_cons_ne _ _ hk]
      cases List.dlookup key rest with
      | some w => rfl
      | none => simp [AList.lookup_insert_ne hk]

theorem lookup_getRequestValues (c : GinContext) (key : String) :
    (getRequestValues c).lookup key =
      match c.Request.PostForm.lookup key with
      | some v => some (Value.str (Join v))
      | none => (c.Request.Query.lookup key).map (fun v => Value.str (Join v)) := by
  unfold getRequestValues AList.foldl
  rw [lookup_foldl_flatten _ c.Request.PostForm.nodupKeys]
  change (match AList.lookup key c.Request.PostForm with
    | some v => some (Value.str (Join v))
    | none => _) = _
  cases AList.lookup key c.Request.PostForm with
  | some v => rfl
  | none =>
    simp only
    rw [lookup_foldl_flatten _ c.Request.Query.nodupKeys]
    change (match AList.lookup key c.Request.Query with
      | some v => some (Value.str (Join v))
      | none => _) = _
    cases AList.lookup key c.Request.Query with
    | some v => rfl
    | none => simp

theorem commaJoined_append_head (p a : String) (rest : List String) :
    commaJoined ((p ++ a) :: rest) = p ++ commaJoined (a :: rest) := by
  cases rest with
  | nil => rfl
  | cons y rest => simp [commaJoined, String.append_assoc]

theorem intercalate_go_comma (rest : List String) (acc : String) :
    String.intercalate.go acc "," rest = commaJoined (acc :: rest) := by
  induction rest generalizing acc with
  | nil => rfl
  | cons a rest ih =>
    rw [String.intercalate.go, ih, commaJoined_append_head]
    rfl

theorem Join_eq_commaJoined (v : List String) : Join v = commaJoined v := by
  cases v with
  | nil => rfl
  | cons a rest => exact intercalate_go_comma rest a

/-- C8: the mapping returned by the request-values closure has exactly the
keys of the query string together with the keys of the posted form; a key of
the posted form is mapped to the comma-joined values the form has for it, any
other key to the comma-joined values the query string has for it, where the
comma-joined list is the first value followed by a comma and the next value
for each further value (`["a", "b", "c"]` gives `"a,b,c"`), a single value is
returned as is and no value gives the empty string; the `strings.Join` of the
source computes exactly that. -/
theorem C8_request_values (c : GinContext) (key : String) :
    ((getRequestValues c).lookup key =
      match c.Request.PostForm.lookup key with
      | some v => some (Value.str (commaJoined v))
      | none => (c.Request.Query.lookup key).map (fun v => Value.str (commaJoined v))) ∧
    (key ∈ (getRequestValues c).keys ↔
      key ∈ c.Request.Query.keys ∨ key ∈ c.Request.PostForm.keys) ∧
    (∀ v : List String, Join v = commaJoined v) ∧
    (∀ (x y : String) (rest : List String),
      Join (x :: y :: rest) = x ++ "," ++ Join (y :: rest)) ∧
    (∀ x : String, Join [x] = x) ∧ Join [] = "" ∧
    Join ["a", "b", "c"] = "a,b,c" := by
  refine ⟨?_, ?_, Join_eq_commaJoined, ?_, fun _ => rfl, rfl, by decide⟩
  · rw [lookup_getRequestValues]
    simp only [Join_eq_commaJoined]
  · rw [← AList.mem_keys, ← AList.mem_keys, ← AList.mem_keys, ← AList.lookup_isSome,
      ← AList.lookup_isSome, ← AList.lookup_isSome, lookup_getRequestValues]
    cases AList.lookup key c.Request.PostForm <;>
      cases AList.lookup key c.Request.Query <;> simp
  · intro x y rest
    rw [Join_eq_commaJoined, Join_eq_commaJoined]
    rfl

end Hydra
